import Mathlib

/-!
Verification of the mixed-unitary error channel `AER::Noise::UnitaryError`
from `src/noise/unitary_error.hpp`.

The C++ class is embedded shallowly:

* `rvector_t` (vector of real weights) becomes `List ℚ`;
* `cmatrix_t` (complex matrix) becomes a list of rows of rational pairs —
  the channel never inspects matrix entries, it only stores and forwards
  them, so any type with decidable equality is a faithful payload;
* the `RngEngine` draw `rng.rand_int(probabilities_)` is abstracted as a
  function from the configured weight vector to the drawn index;
* methods that can `throw` return an `Except String _` result paired with
  the (possibly updated) object state, mirroring that a C++ throw leaves
  the object with exactly the fields assigned before the throw.
-/

set_option autoImplicit false

namespace AER
namespace Noise

/-- Real vector type `rvector_t` of the C++ code, modelled over `ℚ`. -/
abbrev rvector_t := List ℚ

/-- Complex matrix type `cmatrix_t`: rows of complex entries, each entry a
pair (re, im) of rationals.  Opaque payload for this component. -/
abbrev cmatrix_t := List (List (ℚ × ℚ))

/-- Qubit register type `reg_t` (vector of qubit identifiers). -/
abbrev reg_t := List Nat

/-- The slice of `Operations::Op` that `sample_noise` constructs: a name
tag, the list of attached matrices, and the target qubits. -/
structure Op where
  name : String := ""
  mats : List cmatrix_t := []
  qubits : reg_t := []
deriving DecidableEq

/-- Return type `NoiseOps` of `sample_noise`: a sequence of operations. -/
abbrev NoiseOps := List Op

/-- Random draw source: `rand_int` on a discrete weighted distribution is
abstracted as a function from the weight vector to the drawn index. -/
abbrev RngEngine := rvector_t → Nat

/-- The draw `rng.rand_int(dist)` of the C++ `RngEngine`. -/
def RngEngine.rand_int (rng : RngEngine) (dist : rvector_t) : Nat := rng dist

/-- State of class `UnitaryError`.  A default-constructed
`std::discrete_distribution` carries the single weight 1 (one outcome with
probability one), hence the default `probabilities_ = [1]`. -/
structure UnitaryError where
  probabilities_ : rvector_t := [1]
  unitaries_ : List cmatrix_t := []
  errors_after_op_ : Bool := true
  combine_error_ : Bool := true
deriving DecidableEq

/-- Method `UnitaryError::sample_noise(qubits, rng)`.  Returns the result
(`NoiseOps` on success, the thrown message on failure) together with the
object state after the call. -/
def UnitaryError.sample_noise (self : UnitaryError) (qubits : reg_t)
    (rng : RngEngine) : Except String NoiseOps × UnitaryError :=
  let r := RngEngine.rand_int rng self.probabilities_
  if r = 0 then
    (Except.ok [], self)
  else if self.unitaries_.length < r then
    (Except.error "Unitary error probability vector does not match number of unitaries.", self)
  else if self.unitaries_.isEmpty then
    (Except.error "Unitary error matrices are not set.", self)
  else
    (Except.ok [{ name := "mat",
                  mats := [self.unitaries_.getD (r - 1) []],
                  qubits := qubits }], self)

/-- One iteration of the loop in `UnitaryError::set_probabilities`: the
accumulator holds `probs_with_identity[0]`, the pushed-back tail
`probs_with_identity[1..]`, and the `probs_valid` flag. -/
def probsStep (acc : ℚ × rvector_t × Bool) (p : ℚ) : ℚ × rvector_t × Bool :=
  (acc.1 - p, acc.2.1 ++ [p], acc.2.2 && !(decide (p < 0) || decide (p > 1)))

/-- Method `UnitaryError::set_probabilities(probs)`.  Builds
`probs_with_identity`, validates, and either throws (state untouched) or
replaces the stored distribution by the built weight vector. -/
def UnitaryError.set_probabilities (self : UnitaryError) (probs : rvector_t) :
    Except String Unit × UnitaryError :=
  let st := probs.foldl probsStep (1, [], true)
  if decide (st.1 > 1) || decide (st.1 < 0) || !st.2.2 then
    (Except.error "UnitaryError: invalid probability vector.", self)
  else
    (Except.ok (), { self with probabilities_ := st.1 :: st.2.1 })

/-- Method `UnitaryError::set_unitaries(mats)`: wholesale replacement of
the matrix list; cannot fail. -/
def UnitaryError.set_unitaries (self : UnitaryError)
    (mats : List cmatrix_t) : UnitaryError :=
  { self with unitaries_ := mats }

/-- Method `UnitaryError::set_errors_after()`. -/
def UnitaryError.set_errors_after (self : UnitaryError) : UnitaryError :=
  { self with errors_after_op_ := true }

/-- Method `UnitaryError::set_errors_before()`. -/
def UnitaryError.set_errors_before (self : UnitaryError) : UnitaryError :=
  { self with errors_after_op_ := false }

/-- Method `UnitaryError::combine_error(val)`. -/
def UnitaryError.combine_error (self : UnitaryError) (val : Bool) : UnitaryError :=
  { self with combine_error_ := val }

/-- The loop of `set_probabilities` computes: subtract the sum from slot 0,
push every probability back, and conjoin the per-entry validity checks. -/
theorem foldl_probsStep (probs : rvector_t) :
    ∀ (w : ℚ) (ws : rvector_t) (b : Bool),
      probs.foldl probsStep (w, ws, b) =
        (w - probs.sum, ws ++ probs,
          b && probs.all (fun p => !(decide (p < 0) || decide (p > 1)))) := by
  induction probs with
  | nil => intro w ws b; simp [probsStep]
  | cons p ps ih =>
      intro w ws b
      simp only [List.foldl_cons, probsStep, ih, List.sum_cons, List.all_cons]
      refine Prod.ext ?_ (Prod.ext ?_ ?_)
      · simp [sub_sub]
      · simp
      · simp [Bool.and_assoc]

/-- The per-entry validity flag holds exactly when every probability lies
in the unit interval. -/
theorem all_prob_valid (probs : rvector_t) :
    probs.all (fun p => !(decide (p < 0) || decide (p > 1))) = true ↔
      ∀ p ∈ probs, 0 ≤ p ∧ p ≤ 1 := by
  simp [List.all_eq_true, not_or, not_lt]

/-- The validation guard of `set_probabilities` fires exactly when some
entry is outside `[0,1]` or the entries sum to more than 1. -/
theorem set_probabilities_guard (probs : rvector_t) :
    (decide ((1 : ℚ) - probs.sum > 1) || decide ((1 : ℚ) - probs.sum < 0) ||
      !(true && probs.all fun p => !(decide (p < 0) || decide (p > 1)))) = true ↔
      ¬ ((∀ p ∈ probs, 0 ≤ p ∧ p ≤ 1) ∧ probs.sum ≤ 1) := by
  constructor
  · intro h hC
    rcases hC with ⟨hV, hle⟩
    have hs : 0 ≤ probs.sum := List.sum_nonneg fun p hp => (hV p hp).1
    have hall : (probs.all fun p => !(decide (p < 0) || decide (p > 1))) = true :=
      (all_prob_valid probs).mpr hV
    have h1 : decide ((1 : ℚ) - probs.sum > 1) = false := decide_eq_false (by linarith)
    have h2 : decide ((1 : ℚ) - probs.sum < 0) = false := decide_eq_false (by linarith)
    rw [hall, h1, h2] at h
    simp at h
  · intro h
    by_cases hV : ∀ p ∈ probs, 0 ≤ p ∧ p ≤ 1
    · have hlt : ¬ probs.sum ≤ 1 := fun hle => h ⟨hV, hle⟩
      have h2 : decide ((1 : ℚ) - probs.sum < 0) = true :=
        decide_eq_true (by linarith [not_le.mp hlt])
      rw [h2]
      simp
    · have hall : (probs.all fun p => !(decide (p < 0) || decide (p > 1))) = false :=
        Bool.eq_false_iff.mpr fun hab => hV ((all_prob_valid probs).mp hab)
      rw [hall]
      simp

/-- Closed-form characterisation of `set_probabilities`: it succeeds and
installs `(1 - sum) :: probs` exactly when every entry is in `[0,1]` and
the entries sum to at most 1; otherwise it throws and leaves the state. -/
theorem set_probabilities_eq (self : UnitaryError) (probs : rvector_t) :
    self.set_probabilities probs =
      if (∀ p ∈ probs, 0 ≤ p ∧ p ≤ 1) ∧ probs.sum ≤ 1 then
        (Except.ok (), { self with probabilities_ := (1 - probs.sum) :: probs })
      else
        (Except.error "UnitaryError: invalid probability vector.", self) := by
  unfold UnitaryError.set_probabilities
  simp only [foldl_probsStep, List.nil_append]
  by_cases hC : (∀ p ∈ probs, 0 ≤ p ∧ p ≤ 1) ∧ probs.sum ≤ 1
  · have hg : ¬ ((decide ((1 : ℚ) - probs.sum > 1) || decide ((1 : ℚ) - probs.sum < 0) ||
        !(true && probs.all fun p => !(decide (p < 0) || decide (p > 1)))) = true) :=
      fun hgt => absurd hC ((set_probabilities_guard probs).mp hgt)
    rw [if_neg hg, if_pos hC]
  · have hg : (decide ((1 : ℚ) - probs.sum > 1) || decide ((1 : ℚ) - probs.sum < 0) ||
        !(true && probs.all fun p => !(decide (p < 0) || decide (p > 1)))) = true :=
      (set_probabilities_guard probs).mpr hC
    rw [if_pos hg, if_neg hC]

/-- The result component of `sample_noise` depends only on the configured
distribution and matrix list (never on the two flags). -/
theorem sample_noise_fst_congr (e1 e2 : UnitaryError) (q : reg_t) (rng : RngEngine)
    (hp : e1.probabilities_ = e2.probabilities_)
    (hu : e1.unitaries_ = e2.unitaries_) :
    (e1.sample_noise q rng).1 = (e2.sample_noise q rng).1 := by
  unfold UnitaryError.sample_noise
  rw [hp, hu]
  simp only [apply_ite (Prod.fst (β := UnitaryError))]

/-- Claim C1: for every configured channel and call of sample_noise, with r
the index drawn from the configured weight vector: if r = 0 the result is
the empty sequence, and if 1 ≤ r ≤ len(matrices) the result is the
single-element sequence holding one "mat" operation that carries exactly
matrices[r-1]. -/
theorem claim_c1 (e : UnitaryError) (qubits : reg_t) (rng : RngEngine) :
    (RngEngine.rand_int rng e.probabilities_ = 0 →
      e.sample_noise qubits rng = (Except.ok [], e)) ∧
    (1 ≤ RngEngine.rand_int rng e.probabilities_ →
      RngEngine.rand_int rng e.probabilities_ ≤ e.unitaries_.length →
      (e.sample_noise qubits rng).1 = Except.ok
        [{ name := "mat",
           mats := [e.unitaries_.getD (RngEngine.rand_int rng e.probabilities_ - 1) []],
           qubits := qubits }]) := by
  constructor
  · intro h0
    simp [UnitaryError.sample_noise, h0]
  · intro h1 h2
    have hne : ¬ RngEngine.rand_int rng e.probabilities_ = 0 := by omega
    have hnl : ¬ e.unitaries_.length < RngEngine.rand_int rng e.probabilities_ := by omega
    have hnemp : e.unitaries_.isEmpty = false := by
      rw [Bool.eq_false_iff]
      intro hab
      rw [List.isEmpty_iff] at hab
      rw [hab] at h2
      simp at h2
      omega
    simp [UnitaryError.sample_noise, hne, hnl, hnemp]

/-- Witness for C1 at a concrete channel: two matrices with weights
drawing index 1 returns the first matrix, drawing index 0 returns nothing. -/
theorem claim_c1_witness :
    (UnitaryError.sample_noise
        { probabilities_ := [(1 : ℚ)/2, 1/4, 1/4],
          unitaries_ := [[[((0 : ℚ), (1 : ℚ))]], [[((1 : ℚ), (0 : ℚ))]]] }
        [0] (fun _ => 1)).1
      = Except.ok [{ name := "mat",
                     mats := [[[((0 : ℚ), (1 : ℚ))]]],
                     qubits := [0] }] :=
  (claim_c1
      { probabilities_ := [(1 : ℚ)/2, 1/4, 1/4],
        unitaries_ := [[[((0 : ℚ), (1 : ℚ))]], [[((1 : ℚ), (0 : ℚ))]]] }
      [0] (fun _ => 1)).2 (by decide) (by decide)

/-- Claim C2: set_probabilities succeeds iff every entry lies in [0,1] and
the entries sum to at most 1; on success the stored weight vector becomes
(1 - sum) prepended to the entries; otherwise it throws the invalid-vector
error and leaves the state untouched (no clamping or renormalisation). -/
theorem claim_c2 (e : UnitaryError) (probs : rvector_t) :
    ((e.set_probabilities probs).1 = Except.ok () ↔
      (∀ p ∈ probs, 0 ≤ p ∧ p ≤ 1) ∧ probs.sum ≤ 1) ∧
    ((∀ p ∈ probs, 0 ≤ p ∧ p ≤ 1) ∧ probs.sum ≤ 1 →
      e.set_probabilities probs
        = (Except.ok (), { e with probabilities_ := (1 - probs.sum) :: probs })) ∧
    (¬ ((∀ p ∈ probs, 0 ≤ p ∧ p ≤ 1) ∧ probs.sum ≤ 1) →
      e.set_probabilities probs
        = (Except.error "UnitaryError: invalid probability vector.", e)) := by
  have h := set_probabilities_eq e probs
  by_cases hC : (∀ p ∈ probs, 0 ≤ p ∧ p ≤ 1) ∧ probs.sum ≤ 1
  · rw [if_pos hC] at h
    rw [h]
    exact ⟨iff_of_true rfl hC, fun _ => rfl, fun hn => absurd hC hn⟩
  · rw [if_neg hC] at h
    rw [h]
    exact ⟨iff_of_false (by simp) hC, fun hCpos => absurd hCpos hC, fun _ => rfl⟩

/-- Witness for C2: a valid vector installs the derived identity weight in
front; an entry above 1 is rejected with the state preserved. -/
theorem claim_c2_witness :
    UnitaryError.set_probabilities {} [(1 : ℚ)]
      = (Except.ok (),
         { ({} : UnitaryError) with
            probabilities_ := (1 - List.sum [(1 : ℚ)]) :: [(1 : ℚ)] }) ∧
    UnitaryError.set_probabilities {} [(2 : ℚ)]
      = (Except.error "UnitaryError: invalid probability vector.", {}) :=
  ⟨(claim_c2 {} [(1 : ℚ)]).2.1 ⟨by decide, by simp⟩,
   (claim_c2 {} [(2 : ℚ)]).2.2
     (fun h => absurd (h.1 2 (List.mem_singleton.mpr rfl)).2 (by decide))⟩

/-- Claim C3: sample_noise fails exactly when the drawn index is non-zero
and it either exceeds the matrix count or the matrix list is empty; the
failure is an error result (no operations are produced). -/
theorem claim_c3 (e : UnitaryError) (q : reg_t) (rng : RngEngine) :
    (∃ msg, (e.sample_noise q rng).1 = Except.error msg) ↔
      (RngEngine.rand_int rng e.probabilities_ ≠ 0 ∧
        (e.unitaries_.length < RngEngine.rand_int rng e.probabilities_ ∨
          e.unitaries_ = [])) := by
  unfold UnitaryError.sample_noise
  by_cases h0 : RngEngine.rand_int rng e.probabilities_ = 0
  · simp [h0]
  · by_cases hl : e.unitaries_.length < RngEngine.rand_int rng e.probabilities_
    · simp [h0, hl]
    · have hne : e.unitaries_ ≠ [] := by
        intro hemp
        rw [hemp] at hl
        simp at hl
        omega
      have hnemp : e.unitaries_.isEmpty = false :=
        Bool.eq_false_iff.mpr fun hab => hne (List.isEmpty_iff.mp hab)
      simp [h0, hl, hne, hnemp]

/-- Claim C4: every operation returned by sample_noise targets exactly the
qubits the call was made with. -/
theorem claim_c4 (e : UnitaryError) (q : reg_t) (rng : RngEngine) (ops : NoiseOps)
    (hok : (e.sample_noise q rng).1 = Except.ok ops) :
    ∀ op ∈ ops, op.qubits = q := by
  intro op hop
  simp only [UnitaryError.sample_noise] at hok
  split_ifs at hok <;>
    (try simp only [Except.ok.injEq] at hok) <;>
    (try subst hok) <;>
    simp_all

/-- Witness for C4 at a concrete channel and draw. -/
theorem claim_c4_witness :
    Op.qubits { name := "mat", mats := [[[((0 : ℚ), (1 : ℚ))]]], qubits := [3] } = [3] :=
  claim_c4
    { probabilities_ := [(1 : ℚ)/2, 1/2], unitaries_ := [[[((0 : ℚ), (1 : ℚ))]]] }
    [3] (fun _ => 1) [{ name := "mat", mats := [[[((0 : ℚ), (1 : ℚ))]]], qubits := [3] }]
    rfl
    { name := "mat", mats := [[[((0 : ℚ), (1 : ℚ))]]], qubits := [3] }
    (List.mem_singleton.mpr rfl)

/-- Counterexample to C5: configuring with a two-entry probability vector
and a single matrix is a legal sequence of setter calls after which the
stored weight vector has length 3 while len(matrices) + 1 = 2. -/
theorem claim_c5_counterexample :
    (UnitaryError.set_probabilities {} [(0 : ℚ), 1]).1 = Except.ok () ∧
    ¬ (((UnitaryError.set_probabilities {} [(0 : ℚ), 1]).2.set_unitaries
          [[[((1 : ℚ), (0 : ℚ))]]]).probabilities_.length
        = ((UnitaryError.set_probabilities {} [(0 : ℚ), 1]).2.set_unitaries
          [[[((1 : ℚ), (0 : ℚ))]]]).unitaries_.length + 1) := by
  have hC : (∀ p ∈ [(0 : ℚ), 1], 0 ≤ p ∧ p ≤ 1) ∧ List.sum [(0 : ℚ), 1] ≤ 1 :=
    ⟨by decide, by simp⟩
  have h := set_probabilities_eq {} [(0 : ℚ), 1]
  rw [if_pos hC] at h
  rw [h]
  exact ⟨rfl, by simp [UnitaryError.set_unitaries]⟩

/-- C5 as amended: after a successful set_probabilities(probs) followed by
set_unitaries(mats) — from any starting state — the invariant
len(probabilities) = len(matrices) + 1 holds if and only if probs has
exactly as many entries as mats; in particular every mismatched-arity
configuration violates it, so the invariant is not preserved by arbitrary
setter sequences. -/
theorem claim_c5_amended (e : UnitaryError) (probs : rvector_t)
    (mats : List cmatrix_t)
    (hC : (∀ p ∈ probs, 0 ≤ p ∧ p ≤ 1) ∧ probs.sum ≤ 1) :
    (((e.set_probabilities probs).2.set_unitaries mats).probabilities_.length
        = ((e.set_probabilities probs).2.set_unitaries mats).unitaries_.length + 1)
      ↔ probs.length = mats.length := by
  have h := set_probabilities_eq e probs
  rw [if_pos hC] at h
  rw [h]
  simp [UnitaryError.set_unitaries]

/-- Witness for the amended C5: a matching one-entry configuration
satisfies the invariant, and the counterexample's mismatched two-entry
configuration is refuted through the same biconditional. -/
theorem claim_c5_amended_witness :
    (((UnitaryError.set_probabilities {} [(1 : ℚ)]).2.set_unitaries
        [[[((1 : ℚ), (0 : ℚ))]]]).probabilities_.length
      = ((UnitaryError.set_probabilities {} [(1 : ℚ)]).2.set_unitaries
        [[[((1 : ℚ), (0 : ℚ))]]]).unitaries_.length + 1)
    ↔ [(1 : ℚ)].length = [[[((1 : ℚ), (0 : ℚ))]]].length :=
  claim_c5_amended {} [(1 : ℚ)] [[[((1 : ℚ), (0 : ℚ))]]] ⟨by decide, by simp⟩

/-- Claim C6: set_errors_after, set_errors_before and combine_error each
touch only their own flag, leaving the distribution and the matrix list
unchanged, and they never change the result of a subsequent sample_noise
call. -/
theorem claim_c6 (e : UnitaryError) (v : Bool) (q : reg_t) (rng : RngEngine) :
    (e.set_errors_after.probabilities_ = e.probabilities_ ∧
     e.set_errors_after.unitaries_ = e.unitaries_ ∧
     e.set_errors_after.combine_error_ = e.combine_error_ ∧
     e.set_errors_after.errors_after_op_ = true) ∧
    (e.set_errors_before.probabilities_ = e.probabilities_ ∧
     e.set_errors_before.unitaries_ = e.unitaries_ ∧
     e.set_errors_before.combine_error_ = e.combine_error_ ∧
     e.set_errors_before.errors_after_op_ = false) ∧
    ((e.combine_error v).probabilities_ = e.probabilities_ ∧
     (e.combine_error v).unitaries_ = e.unitaries_ ∧
     (e.combine_error v).errors_after_op_ = e.errors_after_op_ ∧
     (e.combine_error v).combine_error_ = v) ∧
    ((e.set_errors_after.sample_noise q rng).1 = (e.sample_noise q rng).1 ∧
     (e.set_errors_before.sample_noise q rng).1 = (e.sample_noise q rng).1 ∧
     ((e.combine_error v).sample_noise q rng).1 = (e.sample_noise q rng).1) :=
  ⟨⟨rfl, rfl, rfl, rfl⟩, ⟨rfl, rfl, rfl, rfl⟩, ⟨rfl, rfl, rfl, rfl⟩,
   sample_noise_fst_congr _ _ _ _ rfl rfl,
   sample_noise_fst_congr _ _ _ _ rfl rfl,
   sample_noise_fst_congr _ _ _ _ rfl rfl⟩

/-- Claim C7: sample_noise leaves every field of the channel unchanged,
and its result depends only on the configured distribution, the matrix
list and the value drawn. -/
theorem claim_c7 (e : UnitaryError) (q : reg_t) (rng : RngEngine) :
    (e.sample_noise q rng).2 = e ∧
    (∀ e2 : UnitaryError, e.probabilities_ = e2.probabilities_ →
      e.unitaries_ = e2.unitaries_ →
      (e.sample_noise q rng).1 = (e2.sample_noise q rng).1) := by
  constructor
  · simp only [UnitaryError.sample_noise]
    split_ifs <;> rfl
  · intro e2 hp hu
    exact sample_noise_fst_congr e e2 q rng hp hu

/-- Witness for C7: two channels differing only in their flags give the
same sampling result. -/
theorem claim_c7_witness :
    (({ probabilities_ := [(1 : ℚ)], unitaries_ := [],
        errors_after_op_ := true, combine_error_ := true } : UnitaryError).sample_noise
          [] (fun _ => 0)).1
      = (({ probabilities_ := [(1 : ℚ)], unitaries_ := [],
            errors_after_op_ := false, combine_error_ := false } : UnitaryError).sample_noise
          [] (fun _ => 0)).1 :=
  (claim_c7
      { probabilities_ := [(1 : ℚ)], unitaries_ := [],
        errors_after_op_ := true, combine_error_ := true }
      [] (fun _ => 0)).2
    { probabilities_ := [(1 : ℚ)], unitaries_ := [],
      errors_after_op_ := false, combine_error_ := false }
    rfl rfl

/-- Claim C8: re-invoking set_probabilities or set_unitaries with the same
argument leaves the channel state unchanged, and the two setters commute
with each other. -/
theorem claim_c8 (e : UnitaryError) (probs : rvector_t) (mats : List cmatrix_t) :
    ((e.set_probabilities probs).2.set_probabilities probs
        = e.set_probabilities probs) ∧
    ((e.set_unitaries mats).set_unitaries mats = e.set_unitaries mats) ∧
    ((e.set_unitaries mats).set_probabilities probs
        = ((e.set_probabilities probs).1,
           (e.set_probabilities probs).2.set_unitaries mats)) := by
  obtain ⟨p, u, a, c⟩ := e
  by_cases hC : (∀ p ∈ probs, 0 ≤ p ∧ p ≤ 1) ∧ probs.sum ≤ 1
  · simp [set_probabilities_eq, UnitaryError.set_unitaries, if_pos hC]
  · simp [set_probabilities_eq, UnitaryError.set_unitaries, if_neg hC]

/-- Claim C9: the empty-matrix-list branch of sample_noise is unreachable:
the "matrices are not set" error is never the result of any call. -/
theorem claim_c9 (e : UnitaryError) (q : reg_t) (rng : RngEngine) :
    (e.sample_noise q rng).1 ≠ Except.error "Unitary error matrices are not set." := by
  simp only [UnitaryError.sample_noise]
  split_ifs with h1 h2 h3
  · simp
  · intro h
    exact absurd (Except.error.inj h) (by decide)
  · exfalso
    have hemp : e.unitaries_ = [] := List.isEmpty_iff.mp h3
    rw [hemp] at h2
    simp at h2
    omega
  · simp

/-- Claim C10: when set_probabilities rejects its input, the channel state
after the call is exactly the state before it. -/
theorem claim_c10 (e : UnitaryError) (probs : rvector_t) (msg : String)
    (h : (e.set_probabilities probs).1 = Except.error msg) :
    (e.set_probabilities probs).2 = e := by
  have heq := set_probabilities_eq e probs
  by_cases hC : (∀ p ∈ probs, 0 ≤ p ∧ p ≤ 1) ∧ probs.sum ≤ 1
  · rw [if_pos hC] at heq
    rw [heq] at h
    simp at h
  · rw [if_neg hC] at heq
    rw [heq]

/-- Witness for C10 at a rejected input: the state is preserved. -/
theorem claim_c10_witness :
    (UnitaryError.set_probabilities {} [(2 : ℚ)]).2 = {} :=
  claim_c10 {} [(2 : ℚ)] "UnitaryError: invalid probability vector."
    (by rw [set_probabilities_eq,
            if_neg (fun hC =>
              absurd (hC.1 2 (List.mem_singleton.mpr rfl)).2 (by decide))])

end Noise
end AER
